import Mathlib

/-!
Shallow embedding of the reverse-proxy core of `esote/http-proxy`
(`http-proxy.go`, package `proxy`), together with theorems settling the
frozen claims about its specification.

Modelling conventions:
- Go strings are byte sequences; the strings handled here are ASCII, so a Go
  string is embedded as `Str := List Char` (Go's `b[1:]` on a string whose
  first byte is `/` is `List.tail`).
- External collaborators from the Go standard library are embedded by their
  documented behaviour: `net/url.Parse` is an abstract parameter
  `parse : Str → Option URL` (`none` = parse error); `http.ServeMux.Handle`
  panics on an empty or duplicate pattern; `srv.ListenAndServe` returning is
  abstracted as an environment-supplied `Option Err` outcome
  (`Err.serverClosed` models `http.ErrServerClosed`).
- The package-level `sync.WaitGroup active` and goroutine interleavings are
  embedded as an event-trace model (`Ev`, `ValidTrace`) below.
-/

/-- A Go string, embedded as its list of characters. -/
abbrev Str := List Char

/-- Source structure `Route`: redirect from pattern `From` to URL `To`. -/
structure Route where
  From : Str
  To : Str
deriving DecidableEq

/-- The fields of a parsed `net/url.URL` that the source reads
(`to.Scheme`, `to.Host`, `to.Path`, `to.RawQuery`). -/
structure URL where
  Scheme : Str
  Host : Str
  Path : Str
  RawQuery : Str
deriving DecidableEq

/-- Source structure `ReverseProxy`. `TLSConfig` (an opaque `*tls.Config`
passed through to the server unread by the core logic) is omitted. The
stop channel `Stop` is embedded as the finite sequence of values received
on it before it is closed (`none` = nil channel). -/
structure ReverseProxy where
  Cert : Str
  Key : Str
  Port : Str
  Routes : List Route
  Stop : Option (List Bool)
  StopTimeout : Int
deriving DecidableEq

/-- Source structure `Proxies`: a list of reverse proxies. -/
structure Proxies where
  Proxies : List ReverseProxy
deriving DecidableEq

/-- Errors that can travel on the `errs` channel, plus the sentinel
`http.ErrServerClosed`. `parseError s` stands for the error returned by
`url.Parse` on input `s`; `serveFailed s` stands for any other bind/serve
error (e.g. a port already in use). -/
inductive Err where
  | serverClosed
  | parseError (badTo : Str)
  | serveFailed (msg : Str)
deriving DecidableEq

/-- Function `join` from the source (Go's `singleJoiningSlash`):
`aslash := strings.HasSuffix(a, "/")`, `bslash := strings.HasPrefix(b, "/")`;
both slashed: `a + b[1:]`; neither slashed: `a + "/" + b`; otherwise `a + b`. -/
def join (a b : Str) : Str :=
  let aslash := a.getLast? == some '/'
  let bslash := b.head? == some '/'
  if aslash && bslash then a ++ b.tail
  else if !aslash && !bslash then a ++ '/' :: b
  else a ++ b

/-- A `http.Header`, embedded as an association list from canonical key to
value list (only `Set` and key-presence are used by the source). -/
abbrev Header := List (Str × List Str)

/-- Models `http.Header.Set`: replace the entry for `k` with the single value `v`. -/
def headerSet (h : Header) (k : Str) (v : Str) : Header :=
  (k, [v]) :: h.filter (fun e => e.1 ≠ k)

/-- Key presence test, modelling Go's `_, ok := req.Header[k]`. -/
def headerHas (h : Header) (k : Str) : Bool :=
  h.any (fun e => e.1 == k)

/-- The parts of a `*http.Request` the director reads or writes. -/
structure Request where
  Host : Str
  Header : Header
  URL : URL
deriving DecidableEq

/-- The custom `director` closure from the source, bound to the parsed
target URL `tgt` (called `to` in the source, with `raw := to.RawQuery`
captured at setup): sets `req.Host` and the `Host` header to the target
host, rewrites scheme/host, joins the path, merges the raw queries with `&`
only when both are non-empty, and forces an empty `User-Agent` header when
none is present. -/
def director (tgt : URL) (req : Request) : Request :=
  let raw := tgt.RawQuery
  let req1 : Request :=
    { req with
      Host := tgt.Host
      Header := headerSet req.Header ("Host".data) tgt.Host
      URL :=
        { req.URL with
          Scheme := tgt.Scheme
          Host := tgt.Host
          Path := join tgt.Path req.URL.Path
          RawQuery :=
            if raw.isEmpty || req.URL.RawQuery.isEmpty then
              raw ++ req.URL.RawQuery
            else
              raw ++ '&' :: req.URL.RawQuery } }
  if headerHas req1.Header ("User-Agent".data) then req1
  else { req1 with Header := headerSet req1.Header ("User-Agent".data) [] }

/-- The body of the shutdown goroutine's receive loop: given the values
received on the stop channel (the list ends where the channel closes, with
`ok == false` causing a plain return), report whether `srv.Shutdown` is
invoked. A `false` value hits `continue`; a `true` value triggers shutdown. -/
def stopSignals : List Bool → Bool
  | [] => false
  | s :: rest => if !s then stopSignals rest else true

/-- The shutdown goroutine: returns immediately when the stop channel is nil,
otherwise runs the receive loop. The result is whether shutdown was begun. -/
def stopWatcher : Option (List Bool) → Bool
  | none => false
  | some received => stopSignals received

/-- The two serve branches of `listenAndServe`. -/
inductive ServeKind where
  | plainHTTP
  | tlsHTTPS
deriving DecidableEq

/-- The source's branch `if r.Key == "" { srv.ListenAndServe() } else
{ srv.ListenAndServeTLS(r.Cert, r.Key) }`: the choice tests only `Key`. -/
def serveKind (r : ReverseProxy) : ServeKind :=
  if r.Key = [] then ServeKind.plainHTTP else ServeKind.tlsHTTPS

/-- The source's error report after serving:
`if err != nil && err != http.ErrServerClosed { errs <- err }`. -/
def serveReport (err : Option Err) : List Err :=
  match err with
  | none => []
  | some e => if e = Err.serverClosed then [] else [e]

/-- Outcome of the route-registration loop at the top of `listenAndServe`. -/
inductive SetupResult where
  | parseFailed (badTo : Str)
  | panicked (pattern : Str)
  | ok
deriving DecidableEq

/-- The route loop of `listenAndServe`: for each route, `url.Parse(route.To)`
(on error: send the error and return), then `mux.Handle(route.From, proxy)`.
`ServeMux.Handle` panics on an empty pattern or a pattern already registered;
`registered` carries the patterns handled so far. -/
def setupRoutes (parse : Str → Option URL) (registered : List Str) :
    List Route → SetupResult
  | [] => SetupResult.ok
  | route :: rest =>
    match parse route.To with
    | none => SetupResult.parseFailed route.To
    | some _ =>
      if route.From = [] then SetupResult.panicked route.From
      else if route.From ∈ registered then SetupResult.panicked route.From
      else setupRoutes parse (route.From :: registered) rest

/-- Observable outcome of one `listenAndServe` goroutine: the errors it sent
on the shared `errs` channel, whether it reached the serve call
(`ListenAndServe`/`ListenAndServeTLS`), whether it executed `active.Done()`,
and whether it panicked in `mux.Handle`. -/
structure ListenerRun where
  emitted : List Err
  reachedServe : Bool
  doneCalled : Bool
  panicked : Bool
deriving DecidableEq

/-- Placeholder run used as the default for list indexing. -/
def dummyRun : ListenerRun :=
  { emitted := [], reachedServe := false, doneCalled := false, panicked := false }

/-- One `listenAndServe` goroutine, as a function of the abstract parse
function and the abstract serve outcome `serveErr` (what the blocking serve
call eventually returned). Mirrors the source's control flow: a route-parse
failure sends that one error and returns WITHOUT `active.Done()`; a
`mux.Handle` panic kills the goroutine before serving; otherwise the server
runs, the serve error is reported per `serveReport`, and `active.Done()`
runs. -/
def runListener (parse : Str → Option URL) (r : ReverseProxy)
    (serveErr : Option Err) : ListenerRun :=
  match setupRoutes parse [] r.Routes with
  | SetupResult.parseFailed t =>
    { emitted := [Err.parseError t], reachedServe := false,
      doneCalled := false, panicked := false }
  | SetupResult.panicked _ =>
    { emitted := [], reachedServe := false, doneCalled := false,
      panicked := true }
  | SetupResult.ok =>
    { emitted := serveReport serveErr, reachedServe := true,
      doneCalled := true, panicked := false }

/-- The fleet launch loop of `Proxy`: one `listenAndServe` goroutine per
configured proxy, listener `i` receiving serve outcome `env i`. -/
def runFleetAux (parse : Str → Option URL) (env : Nat → Option Err) :
    Nat → List ReverseProxy → List ListenerRun
  | _, [] => []
  | i, r :: rest => runListener parse r (env i) :: runFleetAux parse env (i + 1) rest

/-- All listener outcomes of one `Proxy(p)` call. -/
def runFleet (parse : Str → Option URL) (env : Nat → Option Err)
    (p : Proxies) : List ListenerRun :=
  runFleetAux parse env 0 p.Proxies

/-- Number of listeners of the fleet that executed `active.Done()`. -/
def doneCount (runs : List ListenerRun) : Nat :=
  (runs.filter (fun x => x.doneCalled)).length

/-- Whether the monitor goroutine `go func() { active.Wait(); close(errs) }`
ever closes the error channel: `Proxy` does `active.Add(len(p.Proxies))` and
each `Done` subtracts one, so the counter reaches zero exactly when every
listener has called `Done`. -/
def streamCloses (p : Proxies) (runs : List ListenerRun) : Bool :=
  doneCount runs == p.Proxies.length

/-- Drop every leading `/` of a path fragment. -/
def dropLeadSlashes : Str → Str
  | [] => []
  | c :: rest => if c = '/' then dropLeadSlashes rest else c :: rest

/-- Drop every trailing `/` of a path fragment. -/
def dropTrailSlashes (s : Str) : Str :=
  (dropLeadSlashes s.reverse).reverse

/-- Whether a string starts with two slashes. -/
def startsTwoSlashes : Str → Bool
  | '/' :: '/' :: _ => true
  | _ => false

/-- Whether a string ends with two slashes. -/
def endsTwoSlashes (s : Str) : Bool :=
  startsTwoSlashes s.reverse

-- Concrete fixtures used by witnesses and counterexamples.

/-- Concrete stand-in for `net/url.Parse`, used only to instantiate the
parse-parameterised theorems at concrete inputs: `url.Parse(":")` fails with
"missing protocol scheme", every other input used by the fixtures parses. -/
def demoParse (s : Str) : Option URL :=
  if s = [':'] then none
  else some { Scheme := "http".data, Host := "h".data, Path := [], RawQuery := [] }

/-- Serve environment in which every listener's serve call returns nil. -/
def demoEnvNone : Nat → Option Err := fun _ => none

/-- A route whose target URL does not parse. -/
def badRoute : Route := { From := "/".data, To := [':'] }

/-- A route whose target URL parses. -/
def goodRoute : Route := { From := "/".data, To := "http://h".data }

/-- A listener whose only route has an unparseable target. -/
def badListener : ReverseProxy :=
  { Cert := [], Key := [], Port := ":8080".data, Routes := [badRoute],
    Stop := none, StopTimeout := 0 }

/-- A listener whose single route parses. -/
def goodListener : ReverseProxy :=
  { Cert := [], Key := [], Port := ":8081".data, Routes := [goodRoute],
    Stop := none, StopTimeout := 0 }

/-- A one-listener fleet whose listener fails route parsing. -/
def demoFleetBad : Proxies := { Proxies := [badListener] }

/-- A two-listener fleet: listener 0 fails route parsing, listener 1 is fine. -/
def demoFleetMixed : Proxies := { Proxies := [badListener, goodListener] }

/-!
Event-trace model for the serialization of successive `Proxy` calls on the
package-level `sync.WaitGroup active`. A first fleet of `n` listeners has
already executed `active.Add(n)`; its listeners each eventually run
`active.Done()`, and its monitor goroutine runs `active.Wait(); close(errs)`.
A second `Proxy(p)` call then runs, in program order,
`active.Wait(); active.Add(m); go listenAndServe ...` for its `m` listeners.
A trace is any interleaving of these events consistent with the WaitGroup
semantics (`Wait` returns only at a moment the counter is zero).
-/

/-- Events observable while a second `Proxy` call overlaps the first fleet. -/
inductive Ev where
  | prevDone
  | waitReturn
  | addNew
  | launchNew (i : Nat)
  | closePrev
deriving DecidableEq

/-- Whether an event is the launch of a second-fleet listener. -/
def Ev.isLaunch : Ev → Bool
  | Ev.launchNew _ => true
  | _ => false

/-- The WaitGroup counter after the events of `p`: the first fleet's
`Add(n)` already happened, the second call's `Add(m)` counts once it appears,
and each `prevDone` subtracts one. -/
def wgCounter (n m : Nat) (p : List Ev) : Int :=
  (n : Int) + (if Ev.addNew ∈ p then (m : Int) else 0) - (p.count Ev.prevDone : Int)

/-- Validity of an interleaving `t` (first fleet size `n`, second fleet size
`m`): each of the `n` first-fleet listeners calls `Done` at most once; the
second call executes `Add` at most once; `Wait` returns only when the counter
is zero; program order of the second `Proxy` call places `Add` after its
`Wait` and every launch after `Add`; the first monitor's `close` happens only
after its own `Wait` observed a zero counter at some earlier moment. -/
def ValidTrace (n m : Nat) (t : List Ev) : Prop :=
  t.count Ev.prevDone ≤ n ∧
  t.count Ev.addNew ≤ 1 ∧
  ∀ k, k < t.length →
    (t.getD k Ev.prevDone = Ev.waitReturn → wgCounter n m (t.take k) = 0) ∧
    (t.getD k Ev.prevDone = Ev.addNew → Ev.waitReturn ∈ t.take k) ∧
    (Ev.isLaunch (t.getD k Ev.prevDone) = true → Ev.addNew ∈ t.take k) ∧
    (t.getD k Ev.prevDone = Ev.closePrev →
      ∃ j ∈ List.range (k + 1), wgCounter n m (t.take j) = 0)

instance (n m : Nat) (t : List Ev) : Decidable (ValidTrace n m t) := by
  unfold ValidTrace
  infer_instance

/-- A concrete valid interleaving: the single first-fleet listener finishes,
the second call's `Wait` returns, it adds and launches its listener, and only
then does the first monitor close the first error channel. -/
def demoTrace : List Ev :=
  [Ev.prevDone, Ev.waitReturn, Ev.addNew, Ev.launchNew 0, Ev.closePrev]

/-- Placeholder listener used as the default for list indexing. -/
def dummyProxy : ReverseProxy :=
  { Cert := [], Key := [], Port := [], Routes := [], Stop := none, StopTimeout := 0 }

/-- A listener configured with a cert path but no key path. -/
def certOnlyListener : ReverseProxy :=
  { Cert := "cert.pem".data, Key := [], Port := [], Routes := [],
    Stop := none, StopTimeout := 0 }

/-- A listener with two routes sharing the same `From` pattern. -/
def dupListener : ReverseProxy :=
  { Cert := [], Key := [], Port := [],
    Routes := [goodRoute, { From := "/".data, To := "http://h2".data }],
    Stop := none, StopTimeout := 0 }

/-- A target URL with the given raw query, used to exercise the director. -/
def qTgt (q : Str) : URL :=
  { Scheme := "http".data, Host := "h".data, Path := [], RawQuery := q }

/-- An inbound request with the given raw query, used to exercise the
director. -/
def qReq (q : Str) : Request :=
  { Host := [], Header := [],
    URL := { Scheme := [], Host := [], Path := [], RawQuery := q } }

/-! Helper lemmas shared by the claim theorems. -/

theorem dropLeadSlashes_of_head_ne (s : Str) (h : s.head? ≠ some '/') :
    dropLeadSlashes s = s := by
  cases s with
  | nil => rfl
  | cons c rest =>
    simp only [List.head?] at h
    have hc : c ≠ '/' := by intro hcc; exact h (by rw [hcc])
    simp [dropLeadSlashes, hc]

theorem dropTrailSlashes_of_getLast_ne (a : Str) (h : a.getLast? ≠ some '/') :
    dropTrailSlashes a = a := by
  unfold dropTrailSlashes
  rw [dropLeadSlashes_of_head_ne a.reverse (by rw [List.head?_reverse]; exact h)]
  exact a.reverse_reverse

theorem dropTrailSlashes_append_slash (a : Str) (h1 : a.getLast? = some '/')
    (h2 : endsTwoSlashes a = false) : dropTrailSlashes a ++ ['/'] = a := by
  have hrev : a.reverse.head? = some '/' := by rw [List.head?_reverse]; exact h1
  obtain ⟨r1, hr⟩ : ∃ r1, a.reverse = '/' :: r1 := by
    cases hra : a.reverse with
    | nil => rw [hra] at hrev; simp at hrev
    | cons c rest =>
      rw [hra] at hrev
      simp only [List.head?] at hrev
      exact ⟨rest, by rw [Option.some_inj] at hrev; rw [hrev]⟩
  have hr1 : r1.head? ≠ some '/' := by
    intro hh
    cases r1 with
    | nil => simp at hh
    | cons c2 rest2 =>
      simp only [List.head?, Option.some_inj] at hh
      unfold endsTwoSlashes at h2
      rw [hr, hh] at h2
      simp [startsTwoSlashes] at h2
  unfold dropTrailSlashes
  rw [hr]
  simp only [dropLeadSlashes, if_pos rfl]
  rw [dropLeadSlashes_of_head_ne r1 hr1]
  calc r1.reverse ++ ['/'] = ('/' :: r1).reverse := by simp
    _ = a.reverse.reverse := by rw [hr]
    _ = a := a.reverse_reverse

theorem runFleetAux_getD (parse : Str → Option URL) (env : Nat → Option Err) :
    ∀ (l : List ReverseProxy) (i0 j : Nat), j < l.length →
      (runFleetAux parse env i0 l).getD j dummyRun =
        runListener parse (l.getD j dummyProxy) (env (i0 + j)) := by
  intro l
  induction l with
  | nil => intro i0 j hj; simp at hj
  | cons r rest ih =>
    intro i0 j hj
    cases j with
    | zero => simp [runFleetAux]
    | succ j1 =>
      simp only [runFleetAux, List.getD_cons_succ]
      rw [ih (i0 + 1) j1 (by simpa using hj)]
      congr 2
      omega

theorem runFleet_getD (parse : Str → Option URL) (env : Nat → Option Err)
    (p : Proxies) (j : Nat) (hj : j < p.Proxies.length) :
    (runFleet parse env p).getD j dummyRun =
      runListener parse (p.Proxies.getD j dummyProxy) (env j) := by
  unfold runFleet
  rw [runFleetAux_getD parse env p.Proxies 0 j hj]
  simp

theorem setup_not_ok_of_mem_reg (parse : Str → Option URL) :
    ∀ (routes : List Route) (reg : List Str),
      (∃ x ∈ routes, x.From ∈ reg) →
      setupRoutes parse reg routes ≠ SetupResult.ok := by
  intro routes
  induction routes with
  | nil => intro reg h; simp at h
  | cons r rest ih =>
    intro reg h
    obtain ⟨x, hx, hxr⟩ := h
    cases hp : parse r.To with
    | none => simp [setupRoutes, hp]
    | some u =>
      by_cases he : r.From = []
      · simp [setupRoutes, hp, he]
      · by_cases hm : r.From ∈ reg
        · simp [setupRoutes, hp, he, hm]
        · simp only [setupRoutes, hp, if_neg he, if_neg hm]
          apply ih
          rcases List.mem_cons.mp hx with h1 | h1
          · exact absurd (h1 ▸ hxr) hm
          · exact ⟨x, h1, List.mem_cons_of_mem _ hxr⟩

theorem setup_not_ok_of_not_nodup (parse : Str → Option URL) :
    ∀ (routes : List Route) (reg : List Str),
      ¬ (routes.map Route.From).Nodup →
      setupRoutes parse reg routes ≠ SetupResult.ok := by
  intro routes
  induction routes with
  | nil => intro reg h; simp at h
  | cons r rest ih =>
    intro reg h
    cases hp : parse r.To with
    | none => simp [setupRoutes, hp]
    | some u =>
      by_cases he : r.From = []
      · simp [setupRoutes, hp, he]
      · by_cases hm : r.From ∈ reg
        · simp [setupRoutes, hp, he, hm]
        · simp only [setupRoutes, hp, if_neg he, if_neg hm]
          simp only [List.map_cons, List.nodup_cons, not_and] at h
          by_cases hdup : (rest.map Route.From).Nodup
          · have hmem : r.From ∈ rest.map Route.From := by
              by_contra hn
              exact (h hn) hdup
            obtain ⟨x, hx, hxf⟩ := List.mem_map.mp hmem
            exact setup_not_ok_of_mem_reg parse rest (r.From :: reg)
              ⟨x, hx, by rw [hxf]; exact List.mem_cons_self _ _⟩
          · exact ih (r.From :: reg) hdup

theorem setup_ne_parseFailed (parse : Str → Option URL) :
    ∀ (routes : List Route) (reg : List Str) (t : Str),
      (∀ x ∈ routes, (parse x.To).isSome = true) →
      setupRoutes parse reg routes ≠ SetupResult.parseFailed t := by
  intro routes
  induction routes with
  | nil => intro reg t _; simp [setupRoutes]
  | cons r rest ih =>
    intro reg t hall
    cases hp : parse r.To with
    | none =>
      have := hall r (List.mem_cons_self _ _)
      rw [hp] at this
      simp at this
    | some u =>
      by_cases he : r.From = []
      · simp [setupRoutes, hp, he]
      · by_cases hm : r.From ∈ reg
        · simp [setupRoutes, hp, he, hm]
        · simp only [setupRoutes, hp, if_neg he, if_neg hm]
          exact ih (r.From :: reg) t (fun x hx => hall x (List.mem_cons_of_mem _ hx))

theorem setup_parseFailed_of_bad (parse : Str → Option URL) :
    ∀ (routes : List Route) (reg : List Str),
      (∀ x ∈ routes, x.From ≠ [] ∧ x.From ∉ reg) →
      (routes.map Route.From).Nodup →
      (∃ x ∈ routes, (parse x.To).isSome = false) →
      ∃ t, setupRoutes parse reg routes = SetupResult.parseFailed t := by
  intro routes
  induction routes with
  | nil => intro reg _ _ h; simp at h
  | cons r rest ih =>
    intro reg hok hnd hbad
    cases hp : parse r.To with
    | none => exact ⟨r.To, by simp [setupRoutes, hp]⟩
    | some u =>
      obtain ⟨hre, hrm⟩ := hok r (List.mem_cons_self _ _)
      simp only [setupRoutes, hp, if_neg hre, if_neg hrm]
      simp only [List.map_cons, List.nodup_cons] at hnd
      apply ih (r.From :: reg)
      · intro x hx
        refine ⟨(hok x (List.mem_cons_of_mem _ hx)).1, ?_⟩
        intro hmem
        rcases List.mem_cons.mp hmem with h1 | h1
        · exact hnd.1 (h1 ▸ List.mem_map_of_mem Route.From hx)
        · exact (hok x (List.mem_cons_of_mem _ hx)).2 h1
      · exact hnd.2
      · obtain ⟨x, hx, hxp⟩ := hbad
        rcases List.mem_cons.mp hx with h1 | h1
        · rw [h1, hp] at hxp; simp at hxp
        · exact ⟨x, h1, hxp⟩

theorem getD_append_len {α : Type} (p : List α) (e : α) (s : List α) (d : α) :
    (p ++ e :: s).getD p.length d = e := by
  induction p with
  | nil => rfl
  | cons c rest ih =>
    simp only [List.cons_append, List.length_cons, List.getD_cons_succ]
    exact ih

theorem take_append_len {α : Type} (p : List α) (e : α) (s : List α) :
    (p ++ e :: s).take p.length = p := by
  induction p with
  | nil => rfl
  | cons c rest ih =>
    simp only [List.cons_append, List.length_cons, List.take_succ_cons, ih]

/-! Claim theorems. -/

/-- C1: evaluation of the code at the failing input. The claim says the
error stream is closed exactly once after every listener stops, including a
listener that failed with a route-parse (config) error, and never hangs. In
the code, the parse-error path `errs <- err; return` skips `active.Done()`,
so for a fleet whose single listener has the unparseable target `":"` the
listener terminates (its one error emitted, no serving) yet the completion
counter never reaches zero and the channel is never closed. -/
theorem proxy_parse_error_stream_hangs :
    runFleet demoParse demoEnvNone demoFleetBad =
      [{ emitted := [Err.parseError [':']], reachedServe := false,
         doneCalled := false, panicked := false }] ∧
    streamCloses demoFleetBad (runFleet demoParse demoEnvNone demoFleetBad) = false := by
  decide

/-- C2: in a fleet where listener `i` has well-formed patterns but contains
a route whose target URL fails to parse, and every other listener sets up
cleanly, listener `i` emits exactly one error (the parse error) on the
shared stream and reaches none of the serving phase, while every other
listener still reaches its serve call unaffected. -/
theorem proxy_config_error_isolated (parse : Str → Option URL)
    (env : Nat → Option Err) (p : Proxies) (i : Nat)
    (hpat : ∀ x ∈ (p.Proxies.getD i dummyProxy).Routes, x.From ≠ [])
    (hnodup : ((p.Proxies.getD i dummyProxy).Routes.map Route.From).Nodup)
    (hbad : ∃ x ∈ (p.Proxies.getD i dummyProxy).Routes, (parse x.To).isSome = false)
    (hi : i < p.Proxies.length)
    (hothers : ∀ j, j < p.Proxies.length → j ≠ i →
      setupRoutes parse [] ((p.Proxies.getD j dummyProxy).Routes) = SetupResult.ok) :
    (∃ t, ((runFleet parse env p).getD i dummyRun).emitted = [Err.parseError t]) ∧
    ((runFleet parse env p).getD i dummyRun).reachedServe = false ∧
    ∀ j, j < p.Proxies.length → j ≠ i →
      ((runFleet parse env p).getD j dummyRun).reachedServe = true := by
  obtain ⟨t, hs⟩ := setup_parseFailed_of_bad parse
    (p.Proxies.getD i dummyProxy).Routes []
    (fun x hx => ⟨hpat x hx, by simp⟩) hnodup hbad
  rw [runFleet_getD parse env p i hi]
  refine ⟨⟨t, ?_⟩, ?_, ?_⟩
  · unfold runListener; rw [hs]
  · unfold runListener; rw [hs]
  · intro j hj hji
    rw [runFleet_getD parse env p j hj]
    unfold runListener
    rw [hothers j hj hji]

/-- C2 witness: in the concrete two-listener fleet whose first listener has
the unparseable target `":"`, the first listener never serves and the second
one reaches serving. -/
theorem proxy_config_error_isolated_witness :
    (((runFleet demoParse demoEnvNone demoFleetMixed).getD 0 dummyRun).reachedServe
        = false) ∧
    ((runFleet demoParse demoEnvNone demoFleetMixed).getD 1 dummyRun).reachedServe
        = true :=
  ⟨(proxy_config_error_isolated demoParse demoEnvNone demoFleetMixed 0
      (by decide) (by decide) (by decide) (by decide) (by decide)).2.1,
   (proxy_config_error_isolated demoParse demoEnvNone demoFleetMixed 0
      (by decide) (by decide) (by decide) (by decide) (by decide)).2.2 1
      (by decide) (by decide)⟩

/-- C3 counterexample: the claim as stated says a second `Proxy` call
launches no new listener until the previous fleet's error stream has been
closed. In this valid interleaving the second call's listener is launched
strictly before the first monitor's `close(errs)` event: the launch waits
only for the WaitGroup counter, and the close runs in a concurrently
scheduled goroutine. -/
theorem proxy_second_call_launch_before_close :
    ValidTrace 1 1 demoTrace ∧
    demoTrace =
      [Ev.prevDone, Ev.waitReturn, Ev.addNew] ++ Ev.launchNew 0 :: [Ev.closePrev] ∧
    Ev.closePrev ∉ [Ev.prevDone, Ev.waitReturn, Ev.addNew] := by
  decide

/-- C3 (amended): in every valid interleaving of a second `Proxy` call with
a draining previous fleet of `n` listeners, at the moment any new listener
is launched all `n` previous listeners have already terminated (their
`active.Done()` events precede the launch). -/
theorem proxy_second_call_waits_for_prev_done (n m : Nat) (t p s : List Ev)
    (i : Nat) (hv : ValidTrace n m t) (ht : t = p ++ Ev.launchNew i :: s) :
    p.count Ev.prevDone = n := by
  obtain ⟨hdone, hadd1, hpos⟩ := hv
  subst ht
  have hlen : p.length < (p ++ Ev.launchNew i :: s).length := by
    simp
  have hlaunch := (hpos p.length hlen).2.2.1
  rw [getD_append_len, take_append_len] at hlaunch
  have haddp : Ev.addNew ∈ p := hlaunch rfl
  obtain ⟨p1, p2, hp⟩ := List.append_of_mem haddp
  have ht2 : p ++ Ev.launchNew i :: s = p1 ++ Ev.addNew :: (p2 ++ Ev.launchNew i :: s) := by
    rw [hp]; simp
  have hlen1 : p1.length < (p ++ Ev.launchNew i :: s).length := by
    rw [ht2]; simp
  have haddev := (hpos p1.length hlen1).2.1
  rw [ht2, getD_append_len, take_append_len] at haddev
  have hwr : Ev.waitReturn ∈ p1 := haddev rfl
  obtain ⟨q1, q2, hq⟩ := List.append_of_mem hwr
  have ht3 : p ++ Ev.launchNew i :: s =
      q1 ++ Ev.waitReturn :: (q2 ++ Ev.addNew :: (p2 ++ Ev.launchNew i :: s)) := by
    rw [ht2, hq]; simp
  have hlenq : q1.length < (p ++ Ev.launchNew i :: s).length := by
    rw [ht3]; simp
  have hzero := (hpos q1.length hlenq).1
  rw [ht3, getD_append_len, take_append_len] at hzero
  have hz := hzero rfl
  have hnadd : Ev.addNew ∉ q1 := by
    intro hmem
    have h1 : 0 < q1.count Ev.addNew := List.count_pos_iff.mpr hmem
    have h2 : (p ++ Ev.launchNew i :: s).count Ev.addNew =
        q1.count Ev.addNew + 1 +
          (q2.count Ev.addNew + (p2.count Ev.addNew + (Ev.launchNew i :: s).count Ev.addNew)) := by
      rw [ht3]
      simp [List.count_append, List.count_cons]
      try omega
    omega
  unfold wgCounter at hz
  rw [if_neg hnadd] at hz
  have hq1n : q1.count Ev.prevDone = n := by omega
  have hple : q1.count Ev.prevDone ≤ p.count Ev.prevDone := by
    have : p.count Ev.prevDone =
        q1.count Ev.prevDone + (Ev.waitReturn :: (q2 ++ Ev.addNew :: p2)).count Ev.prevDone := by
      rw [hp, hq]
      simp [List.count_append, List.count_cons]
      try omega
    omega
  have hpt : p.count Ev.prevDone ≤ (p ++ Ev.launchNew i :: s).count Ev.prevDone := by
    simp [List.count_append]
  omega

/-- C3 witness: in the concrete interleaving, the single previous listener's
`Done` has happened before the launch of the new listener. -/
theorem proxy_second_call_waits_for_prev_done_witness :
    ([Ev.prevDone, Ev.waitReturn, Ev.addNew] : List Ev).count Ev.prevDone = 1 :=
  proxy_second_call_waits_for_prev_done 1 1 demoTrace
    [Ev.prevDone, Ev.waitReturn, Ev.addNew] [Ev.closePrev] 0 (by decide) (by decide)

/-- C4 counterexample: the claim says HTTPS is served whenever either of the
cert path and key path is present. With a cert path present but no key
path, the code takes the plaintext-HTTP branch (it tests only `Key`). -/
theorem serve_mode_cert_only_counterexample :
    ¬ (certOnlyListener.Cert = [] ∧ certOnlyListener.Key = []) ∧
    serveKind certOnlyListener = ServeKind.plainHTTP := by
  decide

/-- C4 (amended): a listener serves plaintext HTTP exactly when its key path
is empty and HTTPS exactly when its key path is non-empty; the cert path
plays no part in the choice. -/
theorem serve_mode_key_decides (r : ReverseProxy) :
    (serveKind r = ServeKind.plainHTTP ↔ r.Key = []) ∧
    (serveKind r = ServeKind.tlsHTTPS ↔ r.Key ≠ []) := by
  unfold serveKind
  by_cases h : r.Key = [] <;> simp [h]

/-- C4 witness: the cert-only listener serves plaintext HTTP. -/
theorem serve_mode_key_decides_witness :
    serveKind certOnlyListener = ServeKind.plainHTTP :=
  (serve_mode_key_decides certOnlyListener).1.mpr rfl

/-- C5 counterexample: the claim says `join` concatenates directly,
inserting nothing, when neither side provides a slash at the junction; the
code inserts exactly one separating slash there. -/
theorem join_inserts_slash_counterexample :
    join ("a".data) ("b".data) = "a/b".data ∧ "a/b".data ≠ "a".data ++ "b".data := by
  decide

/-- C5 (amended): `join a b` concatenates directly dropping the duplicate
when both sides provide a slash at the junction, concatenates directly
(keeping the single provided slash) when exactly one side provides one, and
inserts exactly one separating slash when neither side provides one. -/
theorem join_case_analysis (a b : Str) :
    ((a.getLast? == some '/') = true → (b.head? == some '/') = true →
      join a b = a ++ b.tail) ∧
    ((a.getLast? == some '/') ≠ (b.head? == some '/') → join a b = a ++ b) ∧
    ((a.getLast? == some '/') = false → (b.head? == some '/') = false →
      join a b = a ++ '/' :: b) := by
  unfold join
  cases h1 : (a.getLast? == some '/') <;> cases h2 : (b.head? == some '/') <;> simp_all

/-- C5 witness: the neither-slashed case at concrete fragments. -/
theorem join_case_analysis_witness :
    join ("x".data) ("y".data) = "x".data ++ '/' :: "y".data :=
  (join_case_analysis ("x".data) ("y".data)).2.2 (by decide) (by decide)

/-- C6 counterexample: for `a = "x//"`, `b = "y"`, `a` ends with a slash,
but the joined result keeps both of `a`'s trailing slashes at the junction
instead of exactly one (junction-normal form `x/y`). -/
theorem join_junction_counterexample :
    ("x//".data).getLast? = some '/' ∧
    join ("x//".data) ("y".data) = "x//y".data ∧
    ¬ join ("x//".data) ("y".data) =
        dropTrailSlashes ("x//".data) ++ '/' :: dropLeadSlashes ("y".data) := by
  decide

/-- C6 (amended): provided `a` does not end with `"//"` and `b` does not
start with `"//"`, whenever `a` ends with a slash or `b` starts with one the
joined result has exactly one slash and no `"//"` at the junction (it equals
`a` without its trailing slash, one `'/'`, then `b` without its leading
slash); the three concrete examples hold as stated. -/
theorem join_junction_normal (a b : Str)
    (ha : endsTwoSlashes a = false) (hb : startsTwoSlashes b = false) :
    (((a.getLast? == some '/') || (b.head? == some '/')) = true →
      join a b = dropTrailSlashes a ++ '/' :: dropLeadSlashes b) ∧
    join ("/api/".data) ("/users".data) = "/api/users".data ∧
    join ("/api".data) ("users".data) = "/api/users".data ∧
    join ("/api/".data) ("users".data) = "/api/users".data := by
  refine ⟨?_, by decide, by decide, by decide⟩
  intro hor
  cases h1 : (a.getLast? == some '/') <;> cases h2 : (b.head? == some '/')
  · rw [h1, h2] at hor; simp at hor
  · obtain ⟨b1, hbb⟩ : ∃ b1, b = '/' :: b1 := by
      cases hbc : b with
      | nil => rw [hbc] at h2; simp at h2
      | cons c rest =>
        rw [hbc] at h2
        simp only [List.head?, beq_iff_eq, Option.some_inj] at h2
        exact ⟨rest, by rw [h2]⟩
    have hd : dropTrailSlashes a = a :=
      dropTrailSlashes_of_getLast_ne a (by simpa using h1)
    have hlead : dropLeadSlashes b = b1 := by
      have hb1 : b1.head? ≠ some '/' := by
        intro hh
        cases b1 with
        | nil => simp at hh
        | cons c2 r2 =>
          simp only [List.head?, Option.some_inj] at hh
          rw [hbb, hh] at hb
          simp [startsTwoSlashes] at hb
      rw [hbb]
      simp only [dropLeadSlashes, if_pos rfl]
      exact dropLeadSlashes_of_head_ne b1 hb1
    have hj : join a b = a ++ b := by simp [join, h1, h2]
    rw [hj, hlead, hd, hbb]
  · have hd : dropTrailSlashes a ++ ['/'] = a :=
      dropTrailSlashes_append_slash a (by simpa using h1) ha
    have hlead : dropLeadSlashes b = b :=
      dropLeadSlashes_of_head_ne b (by simpa using h2)
    have hj : join a b = a ++ b := by simp [join, h1, h2]
    rw [hj, hlead]
    conv_lhs => rw [← hd]
    simp
  · obtain ⟨b1, hbb⟩ : ∃ b1, b = '/' :: b1 := by
      cases hbc : b with
      | nil => rw [hbc] at h2; simp at h2
      | cons c rest =>
        rw [hbc] at h2
        simp only [List.head?, beq_iff_eq, Option.some_inj] at h2
        exact ⟨rest, by rw [h2]⟩
    have hd : dropTrailSlashes a ++ ['/'] = a :=
      dropTrailSlashes_append_slash a (by simpa using h1) ha
    have hlead : dropLeadSlashes b = b1 := by
      have hb1 : b1.head? ≠ some '/' := by
        intro hh
        cases b1 with
        | nil => simp at hh
        | cons c2 r2 =>
          simp only [List.head?, Option.some_inj] at hh
          rw [hbb, hh] at hb
          simp [startsTwoSlashes] at hb
      rw [hbb]
      simp only [dropLeadSlashes, if_pos rfl]
      exact dropLeadSlashes_of_head_ne b1 hb1
    have hj : join a b = a ++ b.tail := by simp [join, h1, h2]
    rw [hj, hlead, hbb]
    conv_lhs => rw [← hd]
    simp

/-- C6 witness: junction-normal form at concrete fragments where one side of
each end provides a single slash. -/
theorem join_junction_normal_witness :
    join ("p/".data) ("/q".data) =
      dropTrailSlashes ("p/".data) ++ '/' :: dropLeadSlashes ("/q".data) :=
  (join_junction_normal ("p/".data) ("/q".data) (by decide) (by decide)).1 (by decide)

/-- C7: the rewritten request's query equals the target query, `&`, then the
inbound query when both are non-empty, and the non-empty one (or empty)
otherwise; including the four concrete merge examples. -/
theorem director_query_merge :
    (∀ (tgt : URL) (req : Request),
      (tgt.RawQuery ≠ [] → req.URL.RawQuery ≠ [] →
        (director tgt req).URL.RawQuery = tgt.RawQuery ++ '&' :: req.URL.RawQuery) ∧
      (tgt.RawQuery = [] → (director tgt req).URL.RawQuery = req.URL.RawQuery) ∧
      (req.URL.RawQuery = [] → (director tgt req).URL.RawQuery = tgt.RawQuery)) ∧
    (director (qTgt []) (qReq [])).URL.RawQuery = [] ∧
    (director (qTgt ("a=1".data)) (qReq [])).URL.RawQuery = "a=1".data ∧
    (director (qTgt []) (qReq ("b=2".data))).URL.RawQuery = "b=2".data ∧
    (director (qTgt ("a=1".data)) (qReq ("b=2".data))).URL.RawQuery = "a=1&b=2".data := by
  refine ⟨?_, by decide, by decide, by decide, by decide⟩
  intro tgt req
  have hsame : (director tgt req).URL.RawQuery =
      (if tgt.RawQuery.isEmpty || req.URL.RawQuery.isEmpty then
        tgt.RawQuery ++ req.URL.RawQuery
      else tgt.RawQuery ++ '&' :: req.URL.RawQuery) := by
    unfold director
    cases hc : (List.isEmpty tgt.RawQuery || List.isEmpty req.URL.RawQuery) <;>
      cases hua : headerHas (headerSet req.Header ("Host".data) tgt.Host)
          ("User-Agent".data) <;>
        simp [hc, hua]
  refine ⟨fun h1 h2 => ?_, fun h1 => ?_, fun h1 => ?_⟩ <;>
    rw [hsame] <;> simp_all

/-- C7 witness: both-non-empty merge at concrete queries. -/
theorem director_query_merge_witness :
    (director (qTgt ("x=1".data)) (qReq ("y=2".data))).URL.RawQuery =
      "x=1".data ++ '&' :: "y=2".data :=
  ((director_query_merge).1 (qTgt ("x=1".data)) (qReq ("y=2".data))).1
    (by decide) (by decide)

/-- C8: a listener whose setup succeeded and whose serve call returned
`http.ErrServerClosed` (the "server was asked to stop" condition, which is
what both a graceful and a timeout-forced shutdown produce) emits nothing on
the shared error stream, and still decrements the completion counter. -/
theorem graceful_stop_not_reported (parse : Str → Option URL) (r : ReverseProxy)
    (hok : setupRoutes parse [] r.Routes = SetupResult.ok) :
    (runListener parse r (some Err.serverClosed)).emitted = [] ∧
    (runListener parse r (some Err.serverClosed)).doneCalled = true := by
  unfold runListener
  rw [hok]
  simp [serveReport]

/-- C8 witness: the concrete healthy listener stopped by shutdown reports
no error. -/
theorem graceful_stop_not_reported_witness :
    (runListener demoParse goodListener (some Err.serverClosed)).emitted = [] :=
  (graceful_stop_not_reported demoParse goodListener (by decide)).1

/-- C9: a `false` value received on the stop channel is a no-op (the watcher
continues with the rest of the received values), and shutdown is initiated
exactly when some received value is `true`. -/
theorem stop_false_is_noop (l : List Bool) :
    stopWatcher (some (false :: l)) = stopWatcher (some l) ∧
    (stopWatcher (some l) = true ↔ true ∈ l) := by
  constructor
  · simp [stopWatcher, stopSignals]
  · induction l with
    | nil => simp [stopWatcher, stopSignals]
    | cons b rest ih =>
      cases b <;> simp_all [stopWatcher, stopSignals]

/-- C9 witness: a `false` followed by a `true` still triggers shutdown. -/
theorem stop_false_is_noop_witness :
    stopWatcher (some [false, true]) = true :=
  ((stop_false_is_noop [true]).1).trans ((stop_false_is_noop [true]).2.mpr (by decide))

/-- C10: a listener whose routes all parse but whose `From` patterns repeat
panics in `mux.Handle` during pattern registration; nothing is sent on the
shared error stream, so the failure is not confined to that listener. -/
theorem duplicate_pattern_panics (parse : Str → Option URL) (r : ReverseProxy)
    (env : Option Err)
    (hparse : ∀ x ∈ r.Routes, (parse x.To).isSome = true)
    (hdup : ¬ (r.Routes.map Route.From).Nodup) :
    (runListener parse r env).panicked = true ∧
    (runListener parse r env).emitted = [] := by
  cases hs : setupRoutes parse [] r.Routes with
  | parseFailed t => exact absurd hs (setup_ne_parseFailed parse r.Routes [] t hparse)
  | panicked f => unfold runListener; rw [hs]; exact ⟨rfl, rfl⟩
  | ok => exact absurd hs (setup_not_ok_of_not_nodup parse r.Routes [] hdup)

/-- C10 witness: the concrete listener with two routes registering the same
pattern panics and emits nothing. -/
theorem duplicate_pattern_panics_witness :
    (runListener demoParse dupListener none).panicked = true ∧
    (runListener demoParse dupListener none).emitted = [] :=
  duplicate_pattern_panics demoParse dupListener none (by decide) (by decide)
